import Mathlib

/-!
# Verification of the generic circuit breaker (`circuit_breaker.go`)

Shallow embedding of the breaker's state machine and counting logic.

Modelling conventions:
* `time.Duration` and the `int64` configuration fields are modelled as `ℤ`
  (all counters here are bounded by the observation-window length, so 64-bit
  overflow is unreachable and is not modelled).
* The `float64` error percentage `float64(errorsCount) / float64(len(responses)) * 100`
  is modelled exactly: for a non-empty window the operands are small integers
  (exactly representable) and the comparison with the threshold is modelled
  over `ℚ`; for an empty window IEEE-754 division by zero is modelled
  explicitly (`0/0` is NaN, whose comparisons are false; `k/0` for `k > 0`
  is `+Inf`, which is `≥` any finite threshold; `k/0` for `k < 0` is `-Inf`,
  which is `≥` no finite threshold).
* Go run-time panics (out-of-range slice expressions, `make` with negative
  capacity) are modelled by `Option`: `none` is a panic.
* Concurrency is not modelled: the operations below are the sequential
  (single-caller) semantics of the Go methods.  `Execute`'s race between the
  wrapped operation and the context deadline is resolved by an explicit
  oracle argument (`ExecOutcome`) saying which case of the `select` wins.
-/

/-- Status from the source: `StatusClosed = iota`, `StatusOpen`, `StatusHalfOpen`. -/
inductive Status : Type where
  | StatusClosed : Status
  | StatusOpen : Status
  | StatusHalfOpen : Status
deriving DecidableEq, Repr

/-- The breaker state (`CircuitBreaker[TRequest, TResponse]` from the source).
The mutex is not part of the sequential model; the generic type parameters do
not occur in any field. -/
structure CircuitBreaker : Type where
  timeout : ℤ
  recoverTimeout : ℤ
  status : Status
  errorThreshold : ℚ
  halfOpenLimit : ℤ
  responsesThreshold : ℤ
  responses : List Bool
deriving DecidableEq, Repr

/-- The comparison `float64(errorsCount) / float64(n) * 100 >= t` of
`handleStatus`, with IEEE-754 semantics at a zero denominator (see the header
comment): NaN and `-Inf` compare false, `+Inf` compares true, and for `n ≠ 0`
the comparison is exact over `ℚ`. -/
def pctGe (errorsCount : ℤ) (n : ℕ) (t : ℚ) : Bool :=
  if n = 0 then decide (0 < errorsCount)
  else decide ((errorsCount : ℚ) / (n : ℚ) * 100 ≥ t)

/-- NewCB from the source.  `make([]bool, 0, responsesThreshold+1)` panics
when the capacity is negative, hence the `Option`. -/
def NewCB (timeout recoverTimeout : ℤ) (errorThreshold : ℚ)
    (halfOpenLimit responsesThreshold : ℤ) : Option CircuitBreaker :=
  if 0 ≤ responsesThreshold + 1 then
    some { timeout := timeout
           recoverTimeout := recoverTimeout
           status := Status.StatusClosed
           errorThreshold := errorThreshold
           halfOpenLimit := halfOpenLimit
           responsesThreshold := responsesThreshold
           responses := [] }
  else none

/-- Model of `addResponse` from the source:
if `len(responses) >= threshold` the slice is cut to
`responses[len(responses)-threshold+1:]` before the append.  The Go slice
expression `s[low:]` panics unless `0 ≤ low ≤ len(s)`, hence the `Option`. -/
def addResponse (cb : CircuitBreaker) (response : Bool) : Option CircuitBreaker :=
  if (cb.responses.length : ℤ) ≥ cb.responsesThreshold then
    if 0 ≤ (cb.responses.length : ℤ) - cb.responsesThreshold + 1 ∧
        (cb.responses.length : ℤ) - cb.responsesThreshold + 1 ≤ (cb.responses.length : ℤ) then
      some { cb with responses :=
        cb.responses.drop ((cb.responses.length : ℤ) - cb.responsesThreshold + 1).toNat
          ++ [response] }
    else none
  else
    some { cb with responses := cb.responses ++ [response] }

/-- The counting loop of `handleResponse`: the pair
`(successesCount, errorsCount)` after the fold over the window, where each
success increments `successesCount`, and each failure increments `errorsCount`
and resets `successesCount` to zero. -/
def countsOf (responses : List Bool) : ℤ × ℤ :=
  responses.foldl (fun p res => if res then (p.1 + 1, p.2) else (0, p.2 + 1)) (0, 0)

/-- Model of `setStatus` from the source: assigns the status and replaces the window by
`make([]bool, 0, responsesThreshold+1)`, which panics for a negative
capacity. -/
def setStatus (cb : CircuitBreaker) (status : Status) : Option CircuitBreaker :=
  if 0 ≤ cb.responsesThreshold + 1 then
    some { cb with status := status, responses := [] }
  else none

/-- Model of `handleStatus` from the source.  The returned `Bool` records whether
`go cb.recover()` was launched.  Note that the percentage's denominator
`len(cb.responses)` and the status in the second condition are read after the
possible Half-Open→Closed `setStatus`, exactly as in the source. -/
def handleStatus (cb : CircuitBreaker) (successesCount errorsCount : ℤ) :
    Option (CircuitBreaker × Bool) :=
  match (if cb.status = Status.StatusHalfOpen ∧ successesCount ≥ cb.halfOpenLimit
         then setStatus cb Status.StatusClosed
         else some cb) with
  | none => none
  | some cb₂ =>
    if pctGe errorsCount cb₂.responses.length cb₂.errorThreshold = true ∨
        (cb₂.status = Status.StatusHalfOpen ∧ errorsCount ≥ cb₂.halfOpenLimit) then
      (setStatus cb₂ Status.StatusOpen).map (fun cb₃ => (cb₃, true))
    else
      some (cb₂, false)

/-- Model of `handleResponse` from the source: append the outcome, recount, and apply
the transition rules.  The returned `Bool` records whether a recovery timer
was scheduled. -/
def handleResponse (cb : CircuitBreaker) (response : Bool) :
    Option (CircuitBreaker × Bool) :=
  match addResponse cb response with
  | none => none
  | some cb₁ => handleStatus cb₁ (countsOf cb₁.responses).1 (countsOf cb₁.responses).2

/-- Model of `recover` from the source, after the sleep: transition to Half-Open only
if the status is still Open, otherwise leave the breaker untouched. -/
def recover (cb : CircuitBreaker) : Option CircuitBreaker :=
  if cb.status = Status.StatusOpen then setStatus cb Status.StatusHalfOpen
  else some cb

/-- Which case of `Execute`'s `select` wins the race: the bounded context
expires first, or the operation completes first with an error `e` (of an
abstract error type `E`), or with a successful result. -/
inductive ExecOutcome (TResponse E : Type) : Type where
  | ctxDone : ExecOutcome TResponse E
  | opError (e : E) : ExecOutcome TResponse E
  | opSuccess (result : TResponse) : ExecOutcome TResponse E

/-- Whether the raced operation counts as a success in `Execute`. -/
def ExecOutcome.isSuccess {TResponse E : Type} : ExecOutcome TResponse E → Bool
  | .opSuccess _ => true
  | _ => false

/-- The distinguishable errors `Execute` can return: `ErrCircuitOpened`,
`ctx.Err()` (deadline exceeded or caller cancellation), or the wrapped
operation's own error propagated verbatim. -/
inductive ExecError (E : Type) : Type where
  | errCircuitOpened : ExecError E
  | ctxErr : ExecError E
  | opErr (e : E) : ExecError E
deriving DecidableEq

/-- Observable result of one `Execute` call: the breaker state afterwards,
the returned `(response, error)` pair (`err = none` is Go's `nil`), the
outcome reported to `handleResponse` (if any), and whether the wrapped
operation's goroutine was launched at all. -/
structure ExecResult (TResponse E : Type) : Type where
  cb : CircuitBreaker
  result : TResponse
  err : Option (ExecError E)
  recorded : Option Bool
  fCalled : Bool

/-- Model of `Execute` from the source.  `default` models the Go zero value
`*new(TResponse)`; the winner of the `select` race is the oracle `o`. -/
def Execute {TResponse E : Type} [Inhabited TResponse]
    (cb : CircuitBreaker) (o : ExecOutcome TResponse E) :
    Option (ExecResult TResponse E) :=
  if cb.status = Status.StatusOpen then
    some { cb := cb, result := default, err := some ExecError.errCircuitOpened
           recorded := none, fCalled := false }
  else
    match o with
    | .ctxDone =>
        (handleResponse cb false).map fun p =>
          { cb := p.1, result := default, err := some ExecError.ctxErr
            recorded := some false, fCalled := true }
    | .opError e =>
        (handleResponse cb false).map fun p =>
          { cb := p.1, result := default, err := some (ExecError.opErr e)
            recorded := some false, fCalled := true }
    | .opSuccess result =>
        (handleResponse cb true).map fun p =>
          { cb := p.1, result := result, err := none
            recorded := some true, fCalled := true }

/-- An event of the breaker's sequential life: one recorded outcome, or the
recovery timer firing. -/
inductive Event : Type where
  | outcome (b : Bool) : Event
  | recoverFires : Event

/-- One event step on the breaker state. -/
def stepEv (cb : CircuitBreaker) : Event → Option CircuitBreaker
  | .outcome b => (handleResponse cb b).map Prod.fst
  | .recoverFires => recover cb

/-- Run a sequence of events, propagating a panic as `none`. -/
def runSeq (cb : CircuitBreaker) : List Event → Option CircuitBreaker
  | [] => some cb
  | ev :: evs =>
    match stepEv cb ev with
    | none => none
    | some cb₂ => runSeq cb₂ evs

/-! ## Helper lemmas -/

theorem setStatus_eq (cb : CircuitBreaker) (st : Status)
    (h : 0 ≤ cb.responsesThreshold + 1) :
    setStatus cb st = some { cb with status := st, responses := [] } := by
  simp [setStatus, h]

theorem addResponse_shape (cb : CircuitBreaker) (b : Bool) (cb₁ : CircuitBreaker)
    (h : addResponse cb b = some cb₁) :
    ∃ pre, cb₁ = { cb with responses := pre ++ [b] } := by
  unfold addResponse at h
  split at h
  · split at h
    · exact ⟨_, (Option.some.injEq _ _).mp h.symm⟩
    · exact absurd h (by simp)
  · exact ⟨_, (Option.some.injEq _ _).mp h.symm⟩

theorem addResponse_isSome (cb : CircuitBreaker) (b : Bool)
    (h : 1 ≤ cb.responsesThreshold) :
    ∃ cb₁, addResponse cb b = some cb₁ := by
  unfold addResponse
  split
  · next hg =>
    have hb : 0 ≤ (cb.responses.length : ℤ) - cb.responsesThreshold + 1 ∧
        (cb.responses.length : ℤ) - cb.responsesThreshold + 1 ≤ (cb.responses.length : ℤ) := by
      omega
    simp [hb]
  · simp

theorem handleStatus_spec (cb : CircuitBreaker) (s e : ℤ)
    (h : 0 ≤ cb.responsesThreshold + 1) :
    handleStatus cb s e =
      (if cb.status = Status.StatusHalfOpen ∧ s ≥ cb.halfOpenLimit then
        (if 0 < e then
          some ({ cb with status := Status.StatusOpen, responses := [] }, true)
        else
          some ({ cb with status := Status.StatusClosed, responses := [] }, false))
      else
        (if pctGe e cb.responses.length cb.errorThreshold = true ∨
            (cb.status = Status.StatusHalfOpen ∧ e ≥ cb.halfOpenLimit) then
          some ({ cb with status := Status.StatusOpen, responses := [] }, true)
        else
          some (cb, false))) := by
  unfold handleStatus
  by_cases h₁ : cb.status = Status.StatusHalfOpen ∧ s ≥ cb.halfOpenLimit
  · rw [if_pos h₁, if_pos h₁, setStatus_eq cb _ h]
    by_cases h₂ : (0 : ℤ) < e
    · have : pctGe e ([] : List Bool).length cb.errorThreshold = true := by
        simp [pctGe, h₂]
      simp only [this, true_or, if_pos]
      rw [setStatus_eq _ _ (by simpa using h)]
      simp [h₂]
    · have hp : pctGe e (0 : ℕ) cb.errorThreshold = false := by
        simp [pctGe, h₂]
      simp [hp, h₂]
  · rw [if_neg h₁, if_neg h₁]
    dsimp only
    by_cases h₂ : pctGe e cb.responses.length cb.errorThreshold = true ∨
        (cb.status = Status.StatusHalfOpen ∧ e ≥ cb.halfOpenLimit)
    · rw [if_pos h₂, if_pos h₂, setStatus_eq cb _ h]
      rfl
    · rw [if_neg h₂, if_neg h₂]

theorem setStatus_some (cb : CircuitBreaker) (st : Status) (cb₂ : CircuitBreaker)
    (h : setStatus cb st = some cb₂) :
    cb₂ = { cb with status := st, responses := [] } := by
  unfold setStatus at h
  split at h
  · exact ((Option.some.injEq _ _).mp h).symm
  · exact absurd h (by simp)

theorem handleStatus_status_or_reset (cb : CircuitBreaker) (s e : ℤ)
    (p : CircuitBreaker × Bool) (h : handleStatus cb s e = some p) :
    p.1.responses = [] ∨ p.1 = cb := by
  unfold handleStatus at h
  cases hmid : (if cb.status = Status.StatusHalfOpen ∧ s ≥ cb.halfOpenLimit
      then setStatus cb Status.StatusClosed else some cb) with
  | none => rw [hmid] at h; exact absurd h (by simp)
  | some cb₂ =>
    rw [hmid] at h
    have hcb₂ : cb₂.responses = [] ∨ cb₂ = cb := by
      split at hmid
      · left
        rw [setStatus_some cb _ cb₂ hmid]
      · right
        exact ((Option.some.injEq _ _).mp hmid).symm
    dsimp only at h
    split at h
    · cases hset : setStatus cb₂ Status.StatusOpen with
      | none => rw [hset] at h; exact absurd h (by simp)
      | some cb₃ =>
        rw [hset] at h
        left
        have hp : p = (cb₃, true) := by
          simpa using h.symm
        rw [hp, setStatus_some cb₂ _ cb₃ hset]
    · have hp : p.1 = cb₂ := by
        rw [← ((Option.some.injEq _ _).mp h)]
      rcases hcb₂ with h₂ | h₂
      · left
        rw [hp]
        exact h₂
      · right
        rw [hp, h₂]

/-! ## Claim theorems -/

/-- C4: Every status transition (Closed→Open, Open→HalfOpen,
HalfOpen→Closed, HalfOpen→Open) clears the observation history: whenever
recording an outcome (`handleResponse`) or the recovery timer (`recover`)
changes the status, the resulting history is empty, so a later
failure-percentage computation only reflects outcomes recorded since that
transition, never outcomes from before it. -/
theorem transition_clears_history :
    (∀ cb b p, handleResponse cb b = some p →
        p.1.status ≠ cb.status → p.1.responses = []) ∧
    (∀ cb cb₂, recover cb = some cb₂ →
        cb₂.status ≠ cb.status → cb₂.responses = []) := by
  constructor
  · intro cb b p hp hne
    unfold handleResponse at hp
    cases hadd : addResponse cb b with
    | none => rw [hadd] at hp; exact absurd hp (by simp)
    | some cb₁ =>
      rw [hadd] at hp
      rcases handleStatus_status_or_reset cb₁ _ _ p hp with h | h
      · exact h
      · exfalso
        obtain ⟨pre, hpre⟩ := addResponse_shape cb b cb₁ hadd
        apply hne
        rw [h, hpre]
  · intro cb cb₂ hr hne
    unfold recover at hr
    split at hr
    · rw [setStatus_some cb _ cb₂ hr]
    · exfalso
      apply hne
      rw [← ((Option.some.injEq _ _).mp hr)]

/-- Witness for C4: a Closed breaker (threshold 50, window size 5) records a
failure, transitions to Open, and the history is reset. -/
theorem transition_clears_history_witness :
    handleResponse (⟨0, 0, Status.StatusClosed, 50, 2, 5, []⟩ : CircuitBreaker) false
      = some ((⟨0, 0, Status.StatusOpen, 50, 2, 5, []⟩ : CircuitBreaker), true) ∧
    ((⟨0, 0, Status.StatusOpen, 50, 2, 5, []⟩ : CircuitBreaker)).responses = [] := by
  have h1 : handleResponse (⟨0, 0, Status.StatusClosed, 50, 2, 5, []⟩ : CircuitBreaker) false
      = some ((⟨0, 0, Status.StatusOpen, 50, 2, 5, []⟩ : CircuitBreaker), true) := by
    simp [handleResponse, addResponse, handleStatus, setStatus, countsOf, pctGe]
    norm_num
  exact ⟨h1, transition_clears_history.1 _ false _ h1 (by decide)⟩

/-- C1: if the breaker status is Open, `Execute` returns immediately with
`ErrCircuitOpened` and the zero-value response, records no outcome, and the
wrapped operation is never invoked. -/
theorem Execute_open_rejects {TResponse E : Type} [Inhabited TResponse]
    (cb : CircuitBreaker) (o : ExecOutcome TResponse E)
    (h : cb.status = Status.StatusOpen) :
    Execute cb o = some ⟨cb, default, some ExecError.errCircuitOpened, none, false⟩ := by
  simp [Execute, h]

/-- Witness for C1 at a concrete Open breaker and a would-be-successful
operation. -/
theorem Execute_open_rejects_witness :
    @Execute ℤ ℤ _ (⟨3, 7, Status.StatusOpen, 50, 2, 5, [true]⟩ : CircuitBreaker)
        (ExecOutcome.opSuccess 9)
      = some ⟨⟨3, 7, Status.StatusOpen, 50, 2, 5, [true]⟩, default,
          some ExecError.errCircuitOpened, none, false⟩ :=
  Execute_open_rejects _ _ rfl

/-- C10: a rejected call (status Open at the admission check) has no side
effect: the state returned by `Execute` equals the prior state in every field
(status, observation history, and all configuration fields), no outcome is
recorded, and the returned error is `ErrCircuitOpened`. -/
theorem Execute_open_frame {TResponse E : Type} [Inhabited TResponse]
    (cb : CircuitBreaker) (o : ExecOutcome TResponse E) (r : ExecResult TResponse E)
    (hOpen : cb.status = Status.StatusOpen) (hr : Execute cb o = some r) :
    r.cb = cb ∧ r.recorded = none ∧ r.err = some ExecError.errCircuitOpened := by
  unfold Execute at hr
  rw [if_pos hOpen] at hr
  rw [← ((Option.some.injEq _ _).mp hr)]
  exact ⟨rfl, rfl, rfl⟩

/-- Witness for C10 at a concrete Open breaker and a failing operation. -/
theorem Execute_open_frame_witness :
    (⟨⟨3, 7, Status.StatusOpen, 50, 2, 5, [false]⟩, (0 : ℤ),
        some ExecError.errCircuitOpened, none, false⟩ : ExecResult ℤ ℤ).cb
        = ⟨3, 7, Status.StatusOpen, 50, 2, 5, [false]⟩ ∧
    (⟨⟨3, 7, Status.StatusOpen, 50, 2, 5, [false]⟩, (0 : ℤ),
        some ExecError.errCircuitOpened, none, false⟩ : ExecResult ℤ ℤ).recorded = none ∧
    (⟨⟨3, 7, Status.StatusOpen, 50, 2, 5, [false]⟩, (0 : ℤ),
        some ExecError.errCircuitOpened, none, false⟩ : ExecResult ℤ ℤ).err
        = some ExecError.errCircuitOpened :=
  Execute_open_frame _ (ExecOutcome.opError (4 : ℤ)) _ rfl rfl

/-- C5: when the recovery timer fires it sets the status to Half-Open and
resets the observation history if and only if the status is still Open at
that moment; if the status is no longer Open, the timer leaves the breaker
completely unchanged. -/
theorem recover_only_if_still_open (cb : CircuitBreaker)
    (h : 0 ≤ cb.responsesThreshold + 1) :
    (cb.status = Status.StatusOpen →
        recover cb = some { cb with status := Status.StatusHalfOpen, responses := [] }) ∧
    (cb.status ≠ Status.StatusOpen → recover cb = some cb) := by
  constructor
  · intro ho
    simp [recover, ho, setStatus, h]
  · intro ho
    simp [recover, ho]

/-- Witness for C5: the timer moves a still-Open breaker with a non-empty
history to Half-Open with an empty history. -/
theorem recover_only_if_still_open_witness :
    recover (⟨3, 7, Status.StatusOpen, 50, 2, 5, [true, false]⟩ : CircuitBreaker)
      = some (⟨3, 7, Status.StatusHalfOpen, 50, 2, 5, []⟩ : CircuitBreaker) :=
  (recover_only_if_still_open _ (by decide)).1 rfl

/-- C7: for a breaker whose window capacity `responsesThreshold` is at
least 1 and whose history is within capacity, recording an outcome succeeds;
when the history is exactly at capacity the single oldest entry is evicted
before the new outcome is appended (preserving the order of the remaining
entries), otherwise the outcome is simply appended; afterwards the history
again holds at most `responsesThreshold` entries. -/
theorem addResponse_window_bound (cb : CircuitBreaker) (b : Bool)
    (h1 : 1 ≤ cb.responsesThreshold)
    (h2 : (cb.responses.length : ℤ) ≤ cb.responsesThreshold) :
    ∃ cb₂, addResponse cb b = some cb₂ ∧
      cb₂.responses = (if (cb.responses.length : ℤ) = cb.responsesThreshold
          then cb.responses.drop 1 else cb.responses) ++ [b] ∧
      (cb₂.responses.length : ℤ) ≤ cb.responsesThreshold := by
  by_cases hfull : (cb.responses.length : ℤ) = cb.responsesThreshold
  · have hg : (cb.responses.length : ℤ) ≥ cb.responsesThreshold := le_of_eq hfull.symm
    have hb : 0 ≤ (cb.responses.length : ℤ) - cb.responsesThreshold + 1 ∧
        (cb.responses.length : ℤ) - cb.responsesThreshold + 1 ≤ (cb.responses.length : ℤ) := by
      omega
    have hnat : ((cb.responses.length : ℤ) - cb.responsesThreshold + 1).toNat = 1 := by
      omega
    have heq : addResponse cb b
        = some { cb with responses := cb.responses.drop 1 ++ [b] } := by
      unfold addResponse
      rw [if_pos hg, if_pos hb, hnat]
    refine ⟨_, heq, by simp [if_pos hfull], ?_⟩
    have hlen1 : 1 ≤ cb.responses.length := by omega
    simp only [List.length_append, List.length_drop, List.length_cons, List.length_nil]
    omega
  · have hg : ¬ ((cb.responses.length : ℤ) ≥ cb.responsesThreshold) := by
      omega
    have heq : addResponse cb b = some { cb with responses := cb.responses ++ [b] } := by
      unfold addResponse
      rw [if_neg hg]
    refine ⟨_, heq, by simp [if_neg hfull], ?_⟩
    simp only [List.length_append, List.length_cons, List.length_nil]
    omega

/-- Witness for C7 at a full window of capacity 3: the oldest entry `true` is
evicted and the new outcome appended. -/
theorem addResponse_window_bound_witness :
    ∃ cb₂, addResponse (⟨0, 0, Status.StatusClosed, 50, 2, 3, [true, false, true]⟩
          : CircuitBreaker) false = some cb₂ ∧
      cb₂.responses = (if ((3 : ℕ) : ℤ) = (3 : ℤ) then [true, false, true].drop 1
          else [true, false, true]) ++ [false] ∧
      (cb₂.responses.length : ℤ) ≤ (3 : ℤ) := by
  exact addResponse_window_bound _ false (by norm_num) (by norm_num)

/-- C6 counterexample: the constructor accepts the configuration with
window size (`responsesThreshold`) 0 — `make([]bool, 0, 1)` does not panic —
but recording the very first outcome panics in `addResponse`: the slice
expression `responses[len(responses)-threshold+1:]` is `responses[1:]` on an
empty slice, out of range. -/
theorem new_config_first_outcome_panics :
    NewCB 0 0 50 3 0 = some (⟨0, 0, Status.StatusClosed, 50, 3, 0, []⟩ : CircuitBreaker) ∧
    handleResponse (⟨0, 0, Status.StatusClosed, 50, 3, 0, []⟩ : CircuitBreaker) true = none := by
  constructor
  · rfl
  · rfl

theorem handleStatus_total (cb : CircuitBreaker) (s e : ℤ)
    (h : 1 ≤ cb.responsesThreshold) :
    ∃ p, handleStatus cb s e = some p ∧ p.1.responsesThreshold = cb.responsesThreshold := by
  rw [handleStatus_spec cb s e (by omega)]
  split
  · split
    · exact ⟨_, rfl, rfl⟩
    · exact ⟨_, rfl, rfl⟩
  · split
    · exact ⟨_, rfl, rfl⟩
    · exact ⟨_, rfl, rfl⟩

theorem handleResponse_total (cb : CircuitBreaker) (b : Bool)
    (h : 1 ≤ cb.responsesThreshold) :
    ∃ p, handleResponse cb b = some p ∧ p.1.responsesThreshold = cb.responsesThreshold := by
  obtain ⟨cb₁, hadd⟩ := addResponse_isSome cb b h
  obtain ⟨pre, hpre⟩ := addResponse_shape cb b cb₁ hadd
  have hth : cb₁.responsesThreshold = cb.responsesThreshold := by rw [hpre]
  obtain ⟨p, hp, hpth⟩ := handleStatus_total cb₁ (countsOf cb₁.responses).1
    (countsOf cb₁.responses).2 (by rw [hth]; exact h)
  refine ⟨p, ?_, by rw [hpth, hth]⟩
  unfold handleResponse
  rw [hadd]
  exact hp

theorem recover_total (cb : CircuitBreaker) (h : 1 ≤ cb.responsesThreshold) :
    ∃ cb₂, recover cb = some cb₂ ∧ cb₂.responsesThreshold = cb.responsesThreshold := by
  unfold recover
  split
  · rw [setStatus_eq cb _ (by omega)]
    exact ⟨_, rfl, rfl⟩
  · exact ⟨cb, rfl, rfl⟩

/-- C6 (amended): for every configuration with window size
`responsesThreshold ≥ 1` (and any threshold and limit values), no breaker
operation panics: every sequence of recorded outcomes and recovery-timer
events runs to completion (`runSeq` never yields `none`, i.e. outcome
recording, the percentage computation and every status transition stay
well-defined), and the breaker remains usable afterwards (its window capacity
is preserved, so the same holds for any further events). -/
theorem runSeq_total (evs : List Event) :
    ∀ cb : CircuitBreaker, 1 ≤ cb.responsesThreshold →
      ∃ cb₂, runSeq cb evs = some cb₂ ∧ cb₂.responsesThreshold = cb.responsesThreshold := by
  induction evs with
  | nil =>
    intro cb h
    exact ⟨cb, rfl, rfl⟩
  | cons ev evs ih =>
    intro cb h
    have hstep : ∃ cb₁, stepEv cb ev = some cb₁ ∧
        cb₁.responsesThreshold = cb.responsesThreshold := by
      cases ev with
      | outcome b =>
        obtain ⟨p, hp, hth⟩ := handleResponse_total cb b h
        refine ⟨p.1, ?_, hth⟩
        simp only [stepEv]
        rw [hp]
        rfl
      | recoverFires => exact recover_total cb h
    obtain ⟨cb₁, h₁, hth₁⟩ := hstep
    obtain ⟨cb₂, h₂, hth₂⟩ := ih cb₁ (by omega)
    refine ⟨cb₂, ?_, by omega⟩
    simp only [runSeq]
    rw [h₁]
    exact h₂

/-- Witness for C6 (amended): a breaker with window capacity 3 survives a
concrete event sequence with a trip, a timer event and further outcomes. -/
theorem runSeq_total_witness :
    ∃ cb₂, runSeq (⟨0, 0, Status.StatusClosed, 50, 2, 3, []⟩ : CircuitBreaker)
        [Event.outcome true, Event.outcome false, Event.recoverFires, Event.outcome true]
        = some cb₂ ∧
      cb₂.responsesThreshold = 3 :=
  runSeq_total [Event.outcome true, Event.outcome false, Event.recoverFires,
    Event.outcome true] (⟨0, 0, Status.StatusClosed, 50, 2, 3, []⟩ : CircuitBreaker)
    (by norm_num)

theorem countsFold_nonneg (rs : List Bool) :
    ∀ p : ℤ × ℤ, 0 ≤ p.1 → 0 ≤ p.2 →
      0 ≤ (rs.foldl (fun q res => if res then (q.1 + 1, q.2) else (0, q.2 + 1)) p).1 ∧
      0 ≤ (rs.foldl (fun q res => if res then (q.1 + 1, q.2) else (0, q.2 + 1)) p).2 := by
  induction rs with
  | nil =>
    intro p h1 h2
    exact ⟨h1, h2⟩
  | cons r rs ih =>
    intro p h1 h2
    rw [List.foldl_cons]
    cases r
    · exact ih _ (by simp) (by simp; omega)
    · exact ih _ (by simp; omega) (by simp; omega)

theorem countsOf_nonneg (rs : List Bool) :
    0 ≤ (countsOf rs).1 ∧ 0 ≤ (countsOf rs).2 := by
  unfold countsOf
  exact countsFold_nonneg rs (0, 0) le_rfl le_rfl

theorem pctGe_pos (e : ℤ) (n : ℕ) (t : ℚ) (hn : n ≠ 0) (ht : 0 < t) (he : 0 ≤ e)
    (h : pctGe e n t = true) : 0 < e := by
  rcases lt_or_eq_of_le he with hlt | heq
  · exact hlt
  · exfalso
    rw [← heq] at h
    simp only [pctGe, if_neg hn, decide_eq_true_eq] at h
    rw [Int.cast_zero, zero_div, zero_mul] at h
    linarith

/-- C2 counterexample: with `errorThreshold = 0` and `halfOpenLimit = 1`
(both accepted by the constructor; the spec allows threshold 0), a Half-Open
breaker with an empty history records a success.  The claim's condition holds
— the failure percentage over the current observation history `[true]` is
`0/1*100 = 0 ≥ errorThreshold` — yet the breaker ends **Closed** with no
recovery timer scheduled, not Open: the code recomputes the percentage over
the history that the Half-Open→Closed transition just emptied, `0/0` is NaN,
and the NaN comparison is false. -/
theorem outcome_triggers_open_counterexample :
    pctGe (countsOf [true]).2 ([true] : List Bool).length (0 : ℚ) = true ∧
    handleResponse (⟨0, 0, Status.StatusHalfOpen, 0, 1, 5, []⟩ : CircuitBreaker) true
      = some ((⟨0, 0, Status.StatusClosed, 0, 1, 5, []⟩ : CircuitBreaker), false) ∧
    Status.StatusClosed ≠ Status.StatusOpen := by
  refine ⟨?_, ?_, by decide⟩
  · simp [countsOf, pctGe]
  · simp [handleResponse, addResponse, handleStatus, setStatus, countsOf, pctGe]

/-- C2 (amended): for configurations with `errorThreshold > 0` and
`halfOpenLimit ≥ 1`, after any single outcome is recorded without panicking,
if the failure percentage over the current observation history (the window
right after the append) reaches `errorThreshold`, or the status is Half-Open
and the recorded failure count reaches `halfOpenLimit`, then the status
becomes Open, the observation history is reset, and the recovery timer is
scheduled. -/
theorem outcome_triggers_open (cb : CircuitBreaker) (b : Bool)
    (cb₁ : CircuitBreaker) (p : CircuitBreaker × Bool)
    (ht : 0 < cb.errorThreshold) (hl : 1 ≤ cb.halfOpenLimit)
    (hadd : addResponse cb b = some cb₁)
    (hp : handleResponse cb b = some p)
    (hcond : pctGe (countsOf cb₁.responses).2 cb₁.responses.length cb.errorThreshold = true ∨
        (cb.status = Status.StatusHalfOpen ∧
          (countsOf cb₁.responses).2 ≥ cb.halfOpenLimit)) :
    p.1.status = Status.StatusOpen ∧ p.1.responses = [] ∧ p.2 = true := by
  obtain ⟨pre, hpre⟩ := addResponse_shape cb b cb₁ hadd
  have hst : cb₁.status = cb.status := by rw [hpre]
  have hth : cb₁.errorThreshold = cb.errorThreshold := by rw [hpre]
  have hhl : cb₁.halfOpenLimit = cb.halfOpenLimit := by rw [hpre]
  have hlen : cb₁.responses.length ≠ 0 := by rw [hpre]; simp
  have he : 0 ≤ (countsOf cb₁.responses).2 := (countsOf_nonneg _).2
  have hepos : 0 < (countsOf cb₁.responses).2 := by
    rcases hcond with hc | hc
    · exact pctGe_pos _ _ _ hlen ht he hc
    · omega
  unfold handleResponse at hp
  rw [hadd] at hp
  dsimp only at hp
  unfold handleStatus at hp
  cases hmid : (if cb₁.status = Status.StatusHalfOpen ∧
      (countsOf cb₁.responses).1 ≥ cb₁.halfOpenLimit
      then setStatus cb₁ Status.StatusClosed else some cb₁) with
  | none =>
    rw [hmid] at hp
    exact absurd hp (by simp)
  | some cb₂ =>
    rw [hmid] at hp
    dsimp only at hp
    by_cases hfire : cb₁.status = Status.StatusHalfOpen ∧
        (countsOf cb₁.responses).1 ≥ cb₁.halfOpenLimit
    · rw [if_pos hfire] at hmid
      have hcb₂ := setStatus_some cb₁ _ cb₂ hmid
      have hcond₂ : pctGe (countsOf cb₁.responses).2 cb₂.responses.length
          cb₂.errorThreshold = true ∨
          (cb₂.status = Status.StatusHalfOpen ∧
            (countsOf cb₁.responses).2 ≥ cb₂.halfOpenLimit) := by
        left
        rw [hcb₂]
        simp [pctGe, hepos]
      rw [if_pos hcond₂] at hp
      cases hset : setStatus cb₂ Status.StatusOpen with
      | none =>
        rw [hset] at hp
        exact absurd hp (by simp)
      | some cb₃ =>
        rw [hset] at hp
        have hp3 : p = (cb₃, true) := by simpa using hp.symm
        have hcb₃ := setStatus_some cb₂ _ cb₃ hset
        rw [hp3, hcb₃]
        exact ⟨rfl, rfl, rfl⟩
    · rw [if_neg hfire] at hmid
      have hcb₂ : cb₂ = cb₁ := ((Option.some.injEq _ _).mp hmid).symm
      have hcond₂ : pctGe (countsOf cb₁.responses).2 cb₂.responses.length
          cb₂.errorThreshold = true ∨
          (cb₂.status = Status.StatusHalfOpen ∧
            (countsOf cb₁.responses).2 ≥ cb₂.halfOpenLimit) := by
        rw [hcb₂, hth, hst, hhl]
        exact hcond
      rw [if_pos hcond₂] at hp
      cases hset : setStatus cb₂ Status.StatusOpen with
      | none =>
        rw [hset] at hp
        exact absurd hp (by simp)
      | some cb₃ =>
        rw [hset] at hp
        have hp3 : p = (cb₃, true) := by simpa using hp.symm
        have hcb₃ := setStatus_some cb₂ _ cb₃ hset
        rw [hp3, hcb₃]
        exact ⟨rfl, rfl, rfl⟩

/-- Witness for C2 (amended): a Closed breaker with threshold 50 records one
failure (100 percent of a window of one) and trips to Open with an empty
history and a scheduled timer. -/
theorem outcome_triggers_open_witness :
    ((⟨0, 0, Status.StatusOpen, 50, 2, 5, []⟩ : CircuitBreaker), true).1.status
        = Status.StatusOpen ∧
    ((⟨0, 0, Status.StatusOpen, 50, 2, 5, []⟩ : CircuitBreaker), true).1.responses
        = ([] : List Bool) ∧
    ((⟨0, 0, Status.StatusOpen, 50, 2, 5, []⟩ : CircuitBreaker), true).2 = true := by
  refine outcome_triggers_open (⟨0, 0, Status.StatusClosed, 50, 2, 5, []⟩ : CircuitBreaker)
    false (⟨0, 0, Status.StatusClosed, 50, 2, 5, [false]⟩ : CircuitBreaker)
    ((⟨0, 0, Status.StatusOpen, 50, 2, 5, []⟩ : CircuitBreaker), true)
    (by norm_num) (by norm_num) rfl ?_ ?_
  · simp [handleResponse, addResponse, handleStatus, setStatus, countsOf, pctGe]
    norm_num
  · left
    simp [countsOf, pctGe]
    norm_num

/-- C3 (claim against code, at the failing input): a Half-Open breaker
with `errorThreshold = 80`, `halfOpenLimit = 2`, window capacity 10 and
history `[true, false, true]` records a success.  The consecutive-success
count reaches the limit (`countsOf` yields 2 trailing successes, 1 failure),
so per the claim the breaker must be Closed when recording returns — but
`handleResponse` leaves it **Open** with a freshly scheduled recovery timer:
after the Half-Open→Closed reset the code recomputes the failure percentage
over the now-empty history, `1/0` is IEEE `+Inf ≥ 80`, and the breaker that
was just closed is immediately re-opened. -/
theorem halfopen_close_reopens_at_failing_input :
    countsOf [true, false, true, true] = (2, 1) ∧
    handleResponse
        (⟨0, 0, Status.StatusHalfOpen, 80, 2, 10, [true, false, true]⟩ : CircuitBreaker) true
      = some ((⟨0, 0, Status.StatusOpen, 80, 2, 10, []⟩ : CircuitBreaker), true) := by
  constructor
  · rfl
  · simp [handleResponse, addResponse, handleStatus, setStatus, countsOf, pctGe]

/-- The `(response, error)` pair `Execute` is specified to return for each
race outcome: the zero value with `ctx.Err()` on expiry, the zero value with
the operation's error propagated verbatim, or the result with a nil error. -/
def ExecOutcome.returnSpec {TResponse E : Type} [Inhabited TResponse] :
    ExecOutcome TResponse E → TResponse × Option (ExecError E)
  | .ctxDone => (default, some ExecError.ctxErr)
  | .opError e => (default, some (ExecError.opErr e))
  | .opSuccess v => (v, none)

/-- C8: for every admitted call (status not Open at the admission check)
that returns normally, `Execute` reports exactly one outcome to the state
store before returning — a success outcome when the operation completes
without error (its response is returned unchanged with a nil error), a
failure outcome when the operation returns an error (propagated verbatim) or
the bounded timeout scope expires (the scope's cancellation error is
returned) — the returned breaker state is the one produced by that single
`handleResponse` call, and no failure path returns without an error. -/
theorem Execute_records_one_outcome {TResponse E : Type} [Inhabited TResponse]
    (cb : CircuitBreaker) (o : ExecOutcome TResponse E) (r : ExecResult TResponse E)
    (hOpen : cb.status ≠ Status.StatusOpen) (hr : Execute cb o = some r) :
    r.recorded = some o.isSuccess ∧
    (∃ p, handleResponse cb o.isSuccess = some p ∧ r.cb = p.1) ∧
    r.result = (ExecOutcome.returnSpec o).1 ∧ r.err = (ExecOutcome.returnSpec o).2 ∧
    (o.isSuccess = false → r.err ≠ none) := by
  cases o with
  | ctxDone =>
    unfold Execute at hr
    rw [if_neg hOpen] at hr
    dsimp only at hr
    cases hh : handleResponse cb false with
    | none =>
      rw [hh] at hr
      exact absurd hr (by simp)
    | some p =>
      rw [hh] at hr
      have hre : r = ⟨p.1, default, some ExecError.ctxErr, some false, true⟩ := by
        simpa using hr.symm
      rw [hre]
      exact ⟨rfl, ⟨p, hh, rfl⟩, rfl, rfl, by simp⟩
  | opError e =>
    unfold Execute at hr
    rw [if_neg hOpen] at hr
    dsimp only at hr
    cases hh : handleResponse cb false with
    | none =>
      rw [hh] at hr
      exact absurd hr (by simp)
    | some p =>
      rw [hh] at hr
      have hre : r = ⟨p.1, default, some (ExecError.opErr e), some false, true⟩ := by
        simpa using hr.symm
      rw [hre]
      exact ⟨rfl, ⟨p, hh, rfl⟩, rfl, rfl, by simp⟩
  | opSuccess v =>
    unfold Execute at hr
    rw [if_neg hOpen] at hr
    dsimp only at hr
    cases hh : handleResponse cb true with
    | none =>
      rw [hh] at hr
      exact absurd hr (by simp)
    | some p =>
      rw [hh] at hr
      have hre : r = ⟨p.1, v, none, some true, true⟩ := by
        simpa using hr.symm
      rw [hre]
      exact ⟨rfl, ⟨p, hh, rfl⟩, rfl, rfl, by simp [ExecOutcome.isSuccess]⟩

/-- Witness for C8: a Closed breaker (threshold 50, window size 5) admits a
successful call; the success outcome is recorded, the response `9` is
returned with a nil error. -/
theorem Execute_records_one_outcome_witness :
    (⟨⟨0, 0, Status.StatusClosed, 50, 2, 5, [true]⟩, (9 : ℤ), none, some true, true⟩ :
        ExecResult ℤ ℤ).recorded = some true ∧
    (∃ p, handleResponse (⟨0, 0, Status.StatusClosed, 50, 2, 5, []⟩ : CircuitBreaker) true
        = some p ∧
      (⟨⟨0, 0, Status.StatusClosed, 50, 2, 5, [true]⟩, (9 : ℤ), none, some true, true⟩ :
          ExecResult ℤ ℤ).cb = p.1) ∧
    (⟨⟨0, 0, Status.StatusClosed, 50, 2, 5, [true]⟩, (9 : ℤ), none, some true, true⟩ :
        ExecResult ℤ ℤ).result = (9 : ℤ) ∧
    (⟨⟨0, 0, Status.StatusClosed, 50, 2, 5, [true]⟩, (9 : ℤ), none, some true, true⟩ :
        ExecResult ℤ ℤ).err = none ∧
    (true = false →
      (⟨⟨0, 0, Status.StatusClosed, 50, 2, 5, [true]⟩, (9 : ℤ), none, some true, true⟩ :
          ExecResult ℤ ℤ).err ≠ none) := by
  exact Execute_records_one_outcome (⟨0, 0, Status.StatusClosed, 50, 2, 5, []⟩ : CircuitBreaker)
    (ExecOutcome.opSuccess (9 : ℤ))
    (⟨⟨0, 0, Status.StatusClosed, 50, 2, 5, [true]⟩, (9 : ℤ), none, some true, true⟩ :
      ExecResult ℤ ℤ)
    (by decide)
    (by simp [Execute, handleResponse, addResponse, handleStatus, setStatus, countsOf, pctGe])
